import Mathlib

/-!
Verification of the justtcg-js SDK core: request serialization, the HTTP
transport's error classification, response normalization and the pagination
driver, shallowly embedded from the TypeScript source
(`src/core/http-client.ts`, `src/core/response-handler.ts`,
`src/v1/resources/base.ts`, `src/v1/resources/sets.ts`,
`src/v1/resources/cards.ts`).
-/

set_option autoImplicit false

namespace JustTCG

/-- Pagination metadata block (`PaginationMeta` in `src/types`): the shape of
the `meta` block of list endpoints and of the `pagination` field of the
normalized response. -/
structure PaginationMeta where
  total : Int
  limit : Int
  offset : Int
  hasMore : Bool
deriving Repr, DecidableEq

/-- Usage metadata (`UsageMeta`): the `_metadata` quota block mapped by the
response handler (the four fields read by `handleResponse` in
`src/core/response-handler.ts`). -/
structure UsageMeta where
  apiRequestLimit : Int
  apiRequestsRemaining : Int
  apiRequestsUsed : Int
  apiPlan : String
deriving Repr, DecidableEq

/-- The raw server envelope (`RawApiResponse<T>` in
`src/core/response-handler.ts`): payload, optional pagination block, usage
block, optional error/code pair. -/
structure RawApiResponse (T : Type) where
  data : T
  meta : Option PaginationMeta
  «_metadata» : UsageMeta
  error : Option String
  code : Option String
deriving Repr, DecidableEq

/-- The normalized client-facing response (`JustTCGApiResponse<T>` in
`src/types`). -/
structure JustTCGApiResponse (T : Type) where
  data : T
  pagination : Option PaginationMeta
  usage : UsageMeta
  error : Option String
  code : Option String
deriving Repr, DecidableEq

/-- JavaScript truthiness of an optional string: `undefined` and the empty
string are falsy, every other string is truthy. -/
def strTruthy : Option String → Bool
  | none => false
  | some s => !s.isEmpty

/-- Embedding of `handleResponse` (`src/core/response-handler.ts`): copies
`data`, rebuilds `pagination` from `meta` when present (the ternary
`rawResponse.meta ? \x7b...\x7d : undefined`), copies the four `_metadata`
fields into `usage` unconditionally, and spreads `error`/`code` only when
truthy (`...(rawResponse.error && \x7b error \x7d)`). -/
def handleResponse {T : Type} (rawResponse : RawApiResponse T) : JustTCGApiResponse T :=
  { data := rawResponse.data
    pagination := rawResponse.meta.map (fun m =>
      { total := m.total
        limit := m.limit
        offset := m.offset
        hasMore := m.hasMore })
    usage :=
      { apiRequestLimit := rawResponse.«_metadata».apiRequestLimit
        apiRequestsRemaining := rawResponse.«_metadata».apiRequestsRemaining
        apiRequestsUsed := rawResponse.«_metadata».apiRequestsUsed
        apiPlan := rawResponse.«_metadata».apiPlan }
    error := if strTruthy rawResponse.error then rawResponse.error else none
    code := if strTruthy rawResponse.code then rawResponse.code else none }

/-- A sample usage block, used for concrete instances in witnesses. -/
def sampleUsage : UsageMeta :=
  { apiRequestLimit := 1000
    apiRequestsRemaining := 999
    apiRequestsUsed := 1
    apiPlan := "Free" }

/-- C2: the normalizer's `pagination` is absent exactly when the envelope has
no `meta` block, equals the `meta` fields value-for-value when `meta` is
present, and `usage` is unconditionally the field-for-field image of
`_metadata`. -/
theorem handleResponse_pagination_usage {T : Type} (raw : RawApiResponse T) :
    ((handleResponse raw).pagination = none ↔ raw.meta = none) ∧
    (∀ m : PaginationMeta, raw.meta = some m →
      (handleResponse raw).pagination =
        some { total := m.total, limit := m.limit, offset := m.offset, hasMore := m.hasMore }) ∧
    (handleResponse raw).usage = raw.«_metadata» := by
  refine ⟨?_, ?_, ?_⟩
  · cases h : raw.meta <;> simp [handleResponse, h]
  · intro m hm
    simp [handleResponse, hm]
  · simp [handleResponse]

/-- Witness for C2 at a concrete envelope carrying a `meta` block. -/
theorem handleResponse_pagination_usage_witness :
    (handleResponse
      { data := [(1 : Nat)]
        meta := some { total := 2, limit := 1, offset := 0, hasMore := true }
        «_metadata» := sampleUsage
        error := none
        code := none }).pagination =
      some { total := 2, limit := 1, offset := 0, hasMore := true } ∧
    (handleResponse
      { data := [(1 : Nat)]
        meta := some { total := 2, limit := 1, offset := 0, hasMore := true }
        «_metadata» := sampleUsage
        error := none
        code := none }).usage = sampleUsage := by
  exact ⟨((handleResponse_pagination_usage _).2.1 _ rfl), (handleResponse_pagination_usage _).2.2⟩

/-- C4: an envelope with a non-empty `error` normalizes to a response carrying
the same `error`, the `data` payload unchanged; `error` and `code` are present
in the output exactly when present and non-empty in the envelope, and the
normalizer returns (never throws) this response. -/
theorem handleResponse_error_passthrough {T : Type} (raw : RawApiResponse T) (s : String)
    (hs : raw.error = some s) (hne : s ≠ "") :
    (handleResponse raw).error = some s ∧
    (handleResponse raw).data = raw.data ∧
    (∀ c : String, raw.code = some c → c ≠ "" → (handleResponse raw).code = some c) ∧
    ((raw.code = none ∨ raw.code = some "") → (handleResponse raw).code = none) := by
  have hbool : ∀ t : String, t ≠ "" → t.isEmpty = false := by
    intro t ht
    cases h : t.isEmpty
    · rfl
    · exact absurd ((String.isEmpty_iff t).mp h) ht
  refine ⟨?_, rfl, ?_, ?_⟩
  · have hts : strTruthy (some s) = true := by simp [strTruthy, hbool s hne]
    simp [handleResponse, hs, hts]
  · intro c hc hcne
    have htc : strTruthy (some c) = true := by simp [strTruthy, hbool c hcne]
    simp [handleResponse, hc, htc]
  · rintro (hc | hc)
    · simp [handleResponse, strTruthy, hc]
    · simp [handleResponse, strTruthy, hc]
      rfl

/-- Witness for C4: the spec's end-to-end API-level failure envelope. -/
theorem handleResponse_error_passthrough_witness :
    (handleResponse
      { data := ([] : List Nat)
        meta := none
        «_metadata» := sampleUsage
        error := some "Required query parameter is missing"
        code := some "INVALID_REQUEST" }).error = some "Required query parameter is missing" ∧
    (handleResponse
      { data := ([] : List Nat)
        meta := none
        «_metadata» := sampleUsage
        error := some "Required query parameter is missing"
        code := some "INVALID_REQUEST" }).code = some "INVALID_REQUEST" := by
  have h := handleResponse_error_passthrough
    { data := ([] : List Nat)
      meta := none
      «_metadata» := sampleUsage
      error := some "Required query parameter is missing"
      code := some "INVALID_REQUEST" } "Required query parameter is missing" rfl (by decide)
  exact ⟨h.1, h.2.2.1 "INVALID_REQUEST" rfl (by decide)⟩

/-- Failure raised by the JavaScript runtime while evaluating `handleResponse`
on an ill-shaped input: reading a property of `undefined`. -/
inductive JsError where
  | typeError
deriving Repr, DecidableEq

/-- A JavaScript-level input object for `handleResponse`: every block the
function reads is optional, so inputs of the raw shape and of the normalized
shape can both be represented. Fields of the normalized shape that the
function never reads (`pagination`, `usage`) are carried for faithfulness. -/
structure JsResponseInput (T : Type) where
  data : T
  meta : Option PaginationMeta
  «_metadata» : Option UsageMeta
  pagination : Option PaginationMeta
  usage : Option UsageMeta
  error : Option String
  code : Option String
deriving Repr, DecidableEq

/-- JavaScript-level evaluation of `handleResponse`: the function first builds
`usage` by reading `rawResponse._metadata.apiRequestLimit` and its siblings, so
when the input carries no `_metadata` block the evaluation fails with a
TypeError; otherwise it proceeds exactly as `handleResponse`. -/
def handleResponseJs {T : Type} (x : JsResponseInput T) :
    Except JsError (JustTCGApiResponse T) :=
  match x.«_metadata» with
  | none => Except.error JsError.typeError
  | some md =>
      Except.ok
        { data := x.data
          pagination := x.meta.map (fun m =>
            { total := m.total
              limit := m.limit
              offset := m.offset
              hasMore := m.hasMore })
          usage :=
            { apiRequestLimit := md.apiRequestLimit
              apiRequestsRemaining := md.apiRequestsRemaining
              apiRequestsUsed := md.apiRequestsUsed
              apiPlan := md.apiPlan }
          error := if strTruthy x.error then x.error else none
          code := if strTruthy x.code then x.code else none }

/-- A raw envelope viewed as a JavaScript input object. -/
def rawToJs {T : Type} (r : RawApiResponse T) : JsResponseInput T :=
  { data := r.data
    meta := r.meta
    «_metadata» := some r.«_metadata»
    pagination := none
    usage := none
    error := r.error
    code := r.code }

/-- A normalized response viewed as a JavaScript input object: it has
`pagination`/`usage` fields and no `meta`/`_metadata` block. -/
def normalizedToJs {T : Type} (n : JustTCGApiResponse T) : JsResponseInput T :=
  { data := n.data
    meta := none
    «_metadata» := none
    pagination := n.pagination
    usage := some n.usage
    error := n.error
    code := n.code }

/-- Counterexample to C9: normalizing a concrete input that already has the
normalized shape does not yield a result at all — the evaluation fails with a
TypeError (the normalized shape has no `_metadata` block, and `handleResponse`
reads `_metadata.apiRequestLimit` unconditionally), so the claim that it
yields the same result as the shape it already has is false. -/
theorem handleResponseJs_normalized_input_fails :
    handleResponseJs (normalizedToJs
      { data := [(1 : Nat)]
        pagination := none
        usage := sampleUsage
        error := none
        code := none }) = Except.error JsError.typeError := rfl

/-- C9 (amended): `handleResponse` is a pure deterministic function — on every
raw envelope the JavaScript-level evaluation succeeds and agrees with the pure
embedding — but on every input that already has the normalized shape it fails
with a TypeError instead of returning the input unchanged, identically on
every application. -/
theorem handleResponse_pure_but_not_idempotent {T : Type} (n : JustTCGApiResponse T) :
    handleResponseJs (normalizedToJs n) = Except.error JsError.typeError ∧
    (∀ raw : RawApiResponse T, handleResponseJs (rawToJs raw) = Except.ok (handleResponse raw)) := by
  constructor
  · rfl
  · intro raw
    rfl

/-- A query-parameter value (`QueryParams` in `src/core/http-client.ts`):
string, string array, number, boolean, `undefined` or `null`. Numbers are
modelled as integers; the claims settled here depend only on which keys are
emitted and on the string image of array values. -/
inductive QueryValue where
  | str (s : String)
  | strArr (xs : List String)
  | num (n : Int)
  | bool (b : Bool)
  | undefined
  | null
deriving Repr, DecidableEq

/-- Whether a query value survives the `value !== undefined && value !== null`
check in `HttpClient.get`. -/
def QueryValue.isPresent : QueryValue → Bool
  | .undefined => false
  | .null => false
  | _ => true

/-- JavaScript `String(value)` on a query value: arrays are comma-joined,
booleans print as `true`/`false`. -/
def QueryValue.jsString : QueryValue → String
  | .str s => s
  | .strArr xs => String.intercalate "," xs
  | .num n => toString n
  | .bool b => if b then "true" else "false"
  | .undefined => "undefined"
  | .null => "null"

/-- Embedding of the query-parameter loop of `HttpClient.get`
(`src/core/http-client.ts`): for each entry in order, append
`(key, String(value))` to the URL search parameters unless the value is
`undefined` or `null`. -/
def serializeQuery (params : List (String × QueryValue)) : List (String × String) :=
  params.filterMap (fun kv =>
    if kv.2.isPresent then some (kv.1, kv.2.jsString) else none)

/-- C8: a key whose every value in the parameter object is absent
(`undefined`/`null`) never appears in the serialized query payload, and a key
holding a present value always appears (with its JavaScript string image). -/
theorem serializeQuery_absent_present (params : List (String × QueryValue)) (k : String) :
    ((∀ v : QueryValue, (k, v) ∈ params → v.isPresent = false) →
      ∀ s : String, (k, s) ∉ serializeQuery params) ∧
    (∀ v : QueryValue, (k, v) ∈ params → v.isPresent = true →
      (k, v.jsString) ∈ serializeQuery params) := by
  constructor
  · intro habs s hmem
    rcases List.mem_filterMap.mp hmem with ⟨⟨k', v⟩, hkv, hv⟩
    by_cases hp : v.isPresent
    · simp [hp] at hv
      rcases hv with ⟨hk, _⟩
      exact absurd (habs v (hk ▸ hkv)) (by simp [hp])
    · simp [Bool.not_eq_true] at hp
      simp [hp] at hv
  · intro v hmem hp
    exact List.mem_filterMap.mpr ⟨(k, v), hmem, by simp [hp]⟩

/-- Witness for C8: a parameter object with one absent and one present field
serializes to the present field alone. -/
theorem serializeQuery_absent_present_witness :
    (∀ s : String, ("game", s) ∉ serializeQuery
      [("game", QueryValue.undefined), ("limit", QueryValue.num 20)]) ∧
    ("limit", "20") ∈ serializeQuery
      [("game", QueryValue.undefined), ("limit", QueryValue.num 20)] := by
  constructor
  · exact (serializeQuery_absent_present
      [("game", QueryValue.undefined), ("limit", QueryValue.num 20)] "game").1
      (by intro v hv; simp at hv; simp [hv, QueryValue.isPresent])
  · exact (serializeQuery_absent_present
      [("game", QueryValue.undefined), ("limit", QueryValue.num 20)] "limit").2
      (QueryValue.num 20) (by simp) rfl

/-- The outcome of one HTTP exchange, as classified by
`HttpClient.get`/`HttpClient.post`: either the parsed envelope, or a thrown
`Error` with a message, or the rejection of `response.json()` on a
non-JSON body. -/
inductive TransportFailure where
  | thrown (msg : String)
  | jsonParseFailure
deriving Repr, DecidableEq

/-- The body of a non-2xx response, when it parsed as JSON: only its `error`
field is read. -/
structure HttpErrorBody where
  error : Option String
deriving Repr, DecidableEq

/-- The generic failure message of `HttpClient` (`src/core/http-client.ts`). -/
def genericApiErrorMessage : String := "An API error occurred"

/-- Embedding of the shared non-2xx handling of `HttpClient.get` and
`HttpClient.post`: when `response.ok` the parsed payload is returned; otherwise
`await response.json()` runs — rejecting on a non-JSON body — and
`new Error(errorBody.error || generic)` is thrown. `body = none` models a
response body that is not parseable JSON. -/
def requestOutcome {T : Type} (ok : Bool) (body : Option HttpErrorBody) (payload : T) :
    Except TransportFailure T :=
  if ok then Except.ok payload
  else
    match body with
    | none => Except.error TransportFailure.jsonParseFailure
    | some errorBody =>
        Except.error (TransportFailure.thrown
          (match errorBody.error with
           | some s => if s.isEmpty then genericApiErrorMessage else s
           | none => genericApiErrorMessage))

/-- Counterexample to C7: a non-2xx response whose body is not parseable JSON
does not fail with the generic-message error — `response.json()` rejects
first, so the call fails with the JSON parse failure instead. -/
theorem requestOutcome_unparseable_body_not_generic :
    requestOutcome false none ([] : List Nat) =
      Except.error TransportFailure.jsonParseFailure ∧
    TransportFailure.jsonParseFailure ≠ TransportFailure.thrown genericApiErrorMessage := by
  exact ⟨rfl, by decide⟩

/-- C7 (amended): a non-2xx response always fails and never yields an
envelope; the failure message is the server-supplied `error` field when the
body parses as JSON with a non-empty `error`, the generic message when the
body parses as JSON without one, and on a non-JSON body the call fails with
the JSON parse failure rather than the generic-message error. -/
theorem requestOutcome_non2xx {T : Type} (body : Option HttpErrorBody) (payload : T) :
    (∀ r : T, requestOutcome false body payload ≠ Except.ok r) ∧
    (∀ eb : HttpErrorBody, ∀ s : String, body = some eb → eb.error = some s → s ≠ "" →
      requestOutcome false body payload = Except.error (TransportFailure.thrown s)) ∧
    (∀ eb : HttpErrorBody, body = some eb → (eb.error = none ∨ eb.error = some "") →
      requestOutcome false body payload =
        Except.error (TransportFailure.thrown genericApiErrorMessage)) ∧
    (body = none →
      requestOutcome false body payload = Except.error TransportFailure.jsonParseFailure) := by
  refine ⟨?_, ?_, ?_, ?_⟩
  · intro r h
    cases body <;> simp [requestOutcome] at h
  · intro eb s hb hs hne
    have hie : s.isEmpty = false := by
      cases h : s.isEmpty
      · rfl
      · exact absurd ((String.isEmpty_iff s).mp h) hne
    simp [requestOutcome, hb, hs, hie]
  · rintro eb hb (he | he)
    · simp [requestOutcome, hb, he]
    · simp [requestOutcome, hb, he]
      intro h
      exact absurd h (by decide)
  · intro hb
    simp [requestOutcome, hb]

/-- Witness for C7 (amended) at a JSON error body carrying a message. -/
theorem requestOutcome_non2xx_witness :
    requestOutcome false (some { error := some "Invalid API key" }) ([] : List Nat) =
      Except.error (TransportFailure.thrown "Invalid API key") := by
  exact (requestOutcome_non2xx (some { error := some "Invalid API key" }) ([] : List Nat)).2.1
    { error := some "Invalid API key" } "Invalid API key" rfl rfl (by decide)

/-- JavaScript property read on an object modelled as an ordered key/value
list: the value at the first matching key, `none` when the key is absent. -/
def jsGet (o : List (String × QueryValue)) (k : String) : Option QueryValue :=
  (o.find? (fun kv => kv.1 == k)).map (fun kv => kv.2)

/-- JavaScript property assignment `o[k] = v`: overwrite in place when the key
exists, append the new property otherwise. -/
def jsSet : List (String × QueryValue) → String → QueryValue → List (String × QueryValue)
  | [], k, v => [(k, v)]
  | kv :: rest, k, v => if kv.1 == k then (k, v) :: rest else kv :: jsSet rest k v

/-- JavaScript `delete o[k]`: remove the property at key `k`. -/
def jsDelete : List (String × QueryValue) → String → List (String × QueryValue)
  | [], _ => []
  | kv :: rest, k => if kv.1 == k then rest else kv :: jsDelete rest k

/-- Embedding of `BaseResource._get` (`src/v1/resources/base.ts`): when the
caller's parameter object holds a string under `query`, the method executes
`params.q = params.query; delete params.query` on that very object, then hands
the object to `HttpClient.get`. The first component is the state of the
caller's object after the call (the TypeScript code mutates it in place), the
second is the serialized query payload of the object passed on. -/
def baseResourceGet (params : List (String × QueryValue)) :
    List (String × QueryValue) × List (String × String) :=
  match jsGet params "query" with
  | some (QueryValue.str s) =>
      let mutated := jsDelete (jsSet params "q" (QueryValue.str s)) "query"
      (mutated, serializeQuery mutated)
  | _ => (params, serializeQuery params)

/-- Counterexample to C6: for the concrete caller object with the single field
`query = "Charizard"`, `_get` leaves the caller's object changed — the field
`query` is deleted and `q` added on the object the caller supplied. -/
theorem baseResourceGet_mutates_counterexample :
    (baseResourceGet [("query", QueryValue.str "Charizard")]).1 =
      [("q", QueryValue.str "Charizard")] ∧
    (baseResourceGet [("query", QueryValue.str "Charizard")]).1 ≠
      [("query", QueryValue.str "Charizard")] := by
  exact ⟨rfl, by decide⟩

/-- Reading a property of a non-empty object looks at the head entry first. -/
theorem jsGet_cons (kv : String × QueryValue) (rest : List (String × QueryValue)) (k : String) :
    jsGet (kv :: rest) k = if kv.1 = k then some kv.2 else jsGet rest k := by
  by_cases h : kv.1 = k
  · rw [if_pos h]
    unfold jsGet
    rw [List.find?_cons_of_pos _ (by simpa using h)]
    rfl
  · rw [if_neg h]
    unfold jsGet
    rw [List.find?_cons_of_neg _ (by simpa using h)]

/-- An object with no entry at a key reads `none` at that key. -/
theorem jsGet_eq_none_of_not_mem (o : List (String × QueryValue)) (k : String)
    (h : k ∉ o.map Prod.fst) : jsGet o k = none := by
  induction o with
  | nil => rfl
  | cons kv rest ih =>
      simp only [List.map_cons, List.mem_cons] at h
      push_neg at h
      rw [jsGet_cons, if_neg (fun he => h.1 he.symm)]
      exact ih h.2

/-- A successful property read means the key occurs among the object's keys. -/
theorem mem_of_jsGet_some (o : List (String × QueryValue)) (k : String) (v : QueryValue)
    (h : jsGet o k = some v) : k ∈ o.map Prod.fst := by
  induction o with
  | nil => simp [jsGet] at h
  | cons kv rest ih =>
      rw [jsGet_cons] at h
      by_cases hk : kv.1 = k
      · simp [hk]
      · rw [if_neg hk] at h
        simp [ih h]

/-- The keys after a JavaScript assignment: unchanged when the key existed,
the key appended otherwise. -/
theorem keys_jsSet (o : List (String × QueryValue)) (k : String) (v : QueryValue) :
    (jsSet o k v).map Prod.fst =
      if k ∈ o.map Prod.fst then o.map Prod.fst else o.map Prod.fst ++ [k] := by
  induction o with
  | nil => simp [jsSet]
  | cons kv rest ih =>
      by_cases h : kv.1 = k
      · simp [jsSet, h]
      · have : k ∈ kv.1 :: rest.map Prod.fst ↔ k ∈ rest.map Prod.fst := by
          simp [Ne.symm h]
        simp only [jsSet, beq_iff_eq, if_neg h, List.map_cons, this, ih]
        by_cases hm : k ∈ rest.map Prod.fst <;> simp [hm]

/-- A JavaScript assignment keeps the object's keys duplicate-free. -/
theorem nodup_keys_jsSet (o : List (String × QueryValue)) (k : String) (v : QueryValue)
    (h : (o.map Prod.fst).Nodup) : ((jsSet o k v).map Prod.fst).Nodup := by
  rw [keys_jsSet]
  by_cases hm : k ∈ o.map Prod.fst
  · simpa [hm] using h
  · simpa [hm] using List.Nodup.append h (List.nodup_singleton k) (by simpa using hm)

/-- Assignment binds the assigned key to the assigned value. -/
theorem jsGet_jsSet_self (o : List (String × QueryValue)) (k : String) (v : QueryValue) :
    jsGet (jsSet o k v) k = some v := by
  induction o with
  | nil => simp [jsSet, jsGet_cons]
  | cons kv rest ih =>
      by_cases h : kv.1 = k
      · simp [jsSet, h, jsGet_cons]
      · simp only [jsSet, beq_iff_eq, if_neg h]
        rw [jsGet_cons, if_neg h]
        exact ih

/-- Deleting a key from an object with duplicate-free keys removes it. -/
theorem jsGet_jsDelete_self (o : List (String × QueryValue)) (k : String)
    (h : (o.map Prod.fst).Nodup) : jsGet (jsDelete o k) k = none := by
  induction o with
  | nil => rfl
  | cons kv rest ih =>
      simp only [List.map_cons, List.nodup_cons] at h
      by_cases hk : kv.1 = k
      · simp only [jsDelete, beq_iff_eq, if_pos hk]
        exact jsGet_eq_none_of_not_mem rest k (hk ▸ h.1)
      · simp only [jsDelete, beq_iff_eq, if_neg hk]
        rw [jsGet_cons, if_neg hk]
        exact ih h.2

/-- Deleting one key leaves reads at every other key unchanged. -/
theorem jsGet_jsDelete_other (o : List (String × QueryValue)) (k k' : String)
    (hne : k' ≠ k) : jsGet (jsDelete o k) k' = jsGet o k' := by
  induction o with
  | nil => rfl
  | cons kv rest ih =>
      by_cases hk : kv.1 = k
      · simp only [jsDelete, beq_iff_eq, if_pos hk]
        rw [jsGet_cons, if_neg (fun he => hne (he.symm.trans hk))]
      · simp only [jsDelete, beq_iff_eq, if_neg hk]
        rw [jsGet_cons, jsGet_cons, ih]

/-- C6 (amended): when the caller's object holds a string under `query`, the
serialization step renames it to the wire key `q` by mutating that object in
place — after the call the caller's object no longer has a `query` field, has
`q` bound to the search text, and is not the object state the caller supplied;
an object without a string `query` field is passed through unchanged. -/
theorem baseResourceGet_mutation (params : List (String × QueryValue)) :
    (∀ s : String, (params.map Prod.fst).Nodup → jsGet params "query" = some (QueryValue.str s) →
      jsGet (baseResourceGet params).1 "query" = none ∧
      jsGet (baseResourceGet params).1 "q" = some (QueryValue.str s) ∧
      (baseResourceGet params).1 ≠ params) ∧
    ((∀ s : String, jsGet params "query" ≠ some (QueryValue.str s)) →
      baseResourceGet params = (params, serializeQuery params)) := by
  constructor
  · intro s hnd hq
    have hres : (baseResourceGet params).1 =
        jsDelete (jsSet params "q" (QueryValue.str s)) "query" := by
      simp [baseResourceGet, hq]
    have hnoquery : jsGet (baseResourceGet params).1 "query" = none := by
      rw [hres]
      exact jsGet_jsDelete_self _ "query" (nodup_keys_jsSet params "q" (QueryValue.str s) hnd)
    refine ⟨hnoquery, ?_, ?_⟩
    · rw [hres, jsGet_jsDelete_other _ "query" "q" (by decide)]
      exact jsGet_jsSet_self params "q" (QueryValue.str s)
    · intro heq
      rw [heq, hq] at hnoquery
      exact Option.noConfusion hnoquery
  · intro hno
    rcases h : jsGet params "query" with _ | v
    · simp [baseResourceGet, h]
    · cases v with
      | str s => exact absurd h (hno s)
      | strArr xs => simp [baseResourceGet, h]
      | num n => simp [baseResourceGet, h]
      | bool b => simp [baseResourceGet, h]
      | undefined => simp [baseResourceGet, h]
      | null => simp [baseResourceGet, h]

/-- Witness for C6 (amended) at the concrete caller object
`\x7b query: "Charizard", limit: 10 \x7d`. -/
theorem baseResourceGet_mutation_witness :
    jsGet (baseResourceGet
      [("query", QueryValue.str "Charizard"), ("limit", QueryValue.num 10)]).1 "query" = none ∧
    jsGet (baseResourceGet
      [("query", QueryValue.str "Charizard"), ("limit", QueryValue.num 10)]).1 "q" =
      some (QueryValue.str "Charizard") ∧
    (baseResourceGet
      [("query", QueryValue.str "Charizard"), ("limit", QueryValue.num 10)]).1 ≠
      [("query", QueryValue.str "Charizard"), ("limit", QueryValue.num 10)] := by
  exact (baseResourceGet_mutation
    [("query", QueryValue.str "Charizard"), ("limit", QueryValue.num 10)]).1
    "Charizard" (by decide) rfl

/-- A JSON value as it appears in a serialized request body: enough of JSON to
distinguish a string from an array of strings. -/
inductive JsonValue where
  | str (s : String)
  | arr (xs : List String)
  | num (n : Int)
  | bool (b : Bool)
deriving Repr, DecidableEq

/-- A batch lookup item (`BatchLookupItem` in `src/types/index.ts`): every
field optional, `printing`/`condition`/`include_statistics` array-valued. -/
structure BatchLookupItem where
  tcgplayerId : Option String := none
  tcgplayerSkuId : Option String := none
  cardId : Option String := none
  variantId : Option String := none
  scryfallId : Option String := none
  mtgjsonId : Option String := none
  updated_after : Option Int := none
  printing : Option (List String) := none
  condition : Option (List String) := none
  include_price_history : Option Bool := none
  include_statistics : Option (List String) := none
deriving Repr, DecidableEq

/-- The stringified batch item built by `HttpClient.post`
(`BatchLookupItemStringified` in `src/core/http-client.ts`): every kept field
holds a plain string. -/
structure BatchLookupItemStringified where
  tcgplayerId : Option String := none
  tcgplayerSkuId : Option String := none
  cardId : Option String := none
  variantId : Option String := none
  scryfallId : Option String := none
  mtgjsonId : Option String := none
  printing : Option String := none
  condition : Option String := none
  include_price_history : Option String := none
  include_statistics : Option String := none
deriving Repr, DecidableEq

/-- JavaScript truthiness filter used by the `if (item.field)` guards of the
stringifier: the empty string is dropped like an absent one. -/
def truthyStr : Option String → Option String
  | none => none
  | some s => if s.isEmpty then none else some s

/-- JavaScript `String(b)` for a boolean. -/
def jsBoolString (b : Bool) : String := if b then "true" else "false"

/-- Embedding of the per-item stringifier of `HttpClient.post`
(`src/core/http-client.ts`): copies the fixed list of fields, guarding the six
identifier fields by truthiness, joining the three array fields with commas,
and keeping `include_price_history` whenever it is not `undefined`. The
`updated_after` field is not in the copy list and is dropped. -/
def stringifyBatchItem (item : BatchLookupItem) : BatchLookupItemStringified :=
  { tcgplayerId := truthyStr item.tcgplayerId
    tcgplayerSkuId := truthyStr item.tcgplayerSkuId
    cardId := truthyStr item.cardId
    variantId := truthyStr item.variantId
    scryfallId := truthyStr item.scryfallId
    mtgjsonId := truthyStr item.mtgjsonId
    printing := item.printing.map (String.intercalate ",")
    condition := item.condition.map (String.intercalate ",")
    include_price_history := item.include_price_history.map jsBoolString
    include_statistics := item.include_statistics.map (String.intercalate ",") }

/-- One optional field of the JSON image of a stringified item:
`JSON.stringify` omits properties holding `undefined`. -/
def optField (k : String) (v : Option String) : List (String × JsonValue) :=
  match v with
  | some s => [(k, JsonValue.str s)]
  | none => []

/-- The JSON image of a stringified batch item, fields in declaration order. -/
def stringifiedFields (it : BatchLookupItemStringified) : List (String × JsonValue) :=
  optField "tcgplayerId" it.tcgplayerId ++
  optField "tcgplayerSkuId" it.tcgplayerSkuId ++
  optField "cardId" it.cardId ++
  optField "variantId" it.variantId ++
  optField "scryfallId" it.scryfallId ++
  optField "mtgjsonId" it.mtgjsonId ++
  optField "printing" it.printing ++
  optField "condition" it.condition ++
  optField "include_price_history" it.include_price_history ++
  optField "include_statistics" it.include_statistics

/-- The JSON body sent over the wire by `HttpClient.post` for a batch lookup:
the array of stringified items (`body.map(...)` then `JSON.stringify`). -/
def postWireBody (items : List BatchLookupItem) : List (List (String × JsonValue)) :=
  items.map (fun i => stringifiedFields (stringifyBatchItem i))

/-- The fixed copy list of the stringifier in `HttpClient.post`. -/
def stringifierCopyList : List String :=
  ["tcgplayerId", "tcgplayerSkuId", "cardId", "variantId", "scryfallId", "mtgjsonId",
   "printing", "condition", "include_price_history", "include_statistics"]

/-- A key occurring in an optional field block is the block's key. -/
theorem eq_of_mem_optField (k k' : String) (v : Option String) (jv : JsonValue)
    (h : (k', jv) ∈ optField k v) : k' = k := by
  cases v with
  | none => simp [optField] at h
  | some s =>
      simp only [optField, List.mem_singleton, Prod.mk.injEq] at h
      exact h.1

/-- A concrete batch item whose `printing` filter is a two-element array. -/
def foilHoloItem : BatchLookupItem := { printing := some ["Foil", "Holo"] }

/-- Counterexample to C5: for the batch call on the single item with
`printing = ["Foil", "Holo"]`, the wire body holds the comma-joined string
`"Foil,Holo"` under `printing` — not the intact array — so array-valued fields
are joined into a delimited string in the JSON body as well, and the body is
the array of stringified items, not the lookup items themselves. -/
theorem postWireBody_joins_counterexample :
    postWireBody [foilHoloItem] = [[("printing", JsonValue.str "Foil,Holo")]] ∧
    postWireBody [foilHoloItem] ≠ [[("printing", JsonValue.arr ["Foil", "Holo"])]] := by
  constructor
  · rfl
  · intro h
    have h2 : [[("printing", JsonValue.str "Foil,Holo")]] =
        [[("printing", JsonValue.arr ["Foil", "Holo"])]] := by
      calc [[("printing", JsonValue.str "Foil,Holo")]]
          = postWireBody [foilHoloItem] := rfl
        _ = [[("printing", JsonValue.arr ["Foil", "Holo"])]] := h
    simp at h2

/-- C5 (amended): the batch POST body is the array of stringified lookup
items, one per input item, and every array-valued field (`printing`,
`condition`, `include_statistics`) of an item appears in its stringified image
joined into a single comma-delimited string — the same delimited encoding a
URL query string would receive — rather than as an intact array. -/
theorem postWireBody_joins_arrays (items : List BatchLookupItem) :
    (postWireBody items).length = items.length ∧
    ∀ item ∈ items,
      stringifiedFields (stringifyBatchItem item) ∈ postWireBody items ∧
      (∀ ps : List String, item.printing = some ps →
        ("printing", JsonValue.str (String.intercalate "," ps)) ∈
          stringifiedFields (stringifyBatchItem item)) ∧
      (∀ cs : List String, item.condition = some cs →
        ("condition", JsonValue.str (String.intercalate "," cs)) ∈
          stringifiedFields (stringifyBatchItem item)) ∧
      (∀ ss : List String, item.include_statistics = some ss →
        ("include_statistics", JsonValue.str (String.intercalate "," ss)) ∈
          stringifiedFields (stringifyBatchItem item)) := by
  refine ⟨by simp [postWireBody], ?_⟩
  intro item hmem
  refine ⟨List.mem_map_of_mem _ hmem, ?_, ?_, ?_⟩
  · intro ps hps
    simp [stringifiedFields, stringifyBatchItem, optField, hps]
  · intro cs hcs
    simp [stringifiedFields, stringifyBatchItem, optField, hcs]
  · intro ss hss
    simp [stringifiedFields, stringifyBatchItem, optField, hss]

/-- Witness for C5 (amended) at a one-item batch with an array filter. -/
theorem postWireBody_joins_arrays_witness :
    (postWireBody [foilHoloItem]).length = 1 ∧
    ("printing", JsonValue.str "Foil,Holo") ∈
      stringifiedFields (stringifyBatchItem foilHoloItem) := by
  have h := postWireBody_joins_arrays [foilHoloItem]
  refine ⟨h.1, ?_⟩
  have h2 := (h.2 foilHoloItem (by simp)).2.1 ["Foil", "Holo"] rfl
  simpa using h2

/-- C10: the stringified wire image of a batch item contains only keys from
the stringifier's fixed copy list; `updated_after` never appears; the six
identifier fields are omitted when they hold the empty string; and
`include_price_history` is kept as the string `"false"` when it is `false`. -/
theorem stringifyBatchItem_copy_list (item : BatchLookupItem) :
    (∀ k : String, ∀ v : JsonValue,
      (k, v) ∈ stringifiedFields (stringifyBatchItem item) → k ∈ stringifierCopyList) ∧
    (∀ v : JsonValue, ("updated_after", v) ∉ stringifiedFields (stringifyBatchItem item)) ∧
    (item.tcgplayerId = some "" →
      ∀ v : JsonValue, ("tcgplayerId", v) ∉ stringifiedFields (stringifyBatchItem item)) ∧
    (item.include_price_history = some false →
      ("include_price_history", JsonValue.str "false") ∈
        stringifiedFields (stringifyBatchItem item)) := by
  have hkeys : ∀ k : String, ∀ v : JsonValue,
      (k, v) ∈ stringifiedFields (stringifyBatchItem item) →
      k = "tcgplayerId" ∨ k = "tcgplayerSkuId" ∨ k = "cardId" ∨ k = "variantId" ∨
      k = "scryfallId" ∨ k = "mtgjsonId" ∨ k = "printing" ∨ k = "condition" ∨
      k = "include_price_history" ∨ k = "include_statistics" := by
    intro k v h
    simp only [stringifiedFields, List.mem_append] at h
    rcases h with ((((((((h | h) | h) | h) | h) | h) | h) | h) | h) | h
    all_goals first
      | exact Or.inl (eq_of_mem_optField _ _ _ _ h)
      | (refine Or.inr ?_
         first
          | exact Or.inl (eq_of_mem_optField _ _ _ _ h)
          | (refine Or.inr ?_
             first
              | exact Or.inl (eq_of_mem_optField _ _ _ _ h)
              | (refine Or.inr ?_
                 first
                  | exact Or.inl (eq_of_mem_optField _ _ _ _ h)
                  | (refine Or.inr ?_
                     first
                      | exact Or.inl (eq_of_mem_optField _ _ _ _ h)
                      | (refine Or.inr ?_
                         first
                          | exact Or.inl (eq_of_mem_optField _ _ _ _ h)
                          | (refine Or.inr ?_
                             first
                              | exact Or.inl (eq_of_mem_optField _ _ _ _ h)
                              | (refine Or.inr ?_
                                 first
                                  | exact Or.inl (eq_of_mem_optField _ _ _ _ h)
                                  | (refine Or.inr ?_
                                     first
                                      | exact Or.inl (eq_of_mem_optField _ _ _ _ h)
                                      | exact Or.inr (eq_of_mem_optField _ _ _ _ h)))))))))
  refine ⟨?_, ?_, ?_, ?_⟩
  · intro k v h
    rcases hkeys k v h with h | h | h | h | h | h | h | h | h | h <;>
      simp [stringifierCopyList, h]
  · intro v h
    rcases hkeys _ v h with h | h | h | h | h | h | h | h | h | h <;> simp at h
  · intro he v h
    simp only [stringifiedFields, List.mem_append] at h
    rcases h with ((((((((h | h) | h) | h) | h) | h) | h) | h) | h) | h
    · rw [stringifyBatchItem] at h
      simp only [he, truthyStr, String.isEmpty, if_pos] at h
      simp [optField] at h
    all_goals
      have := eq_of_mem_optField _ _ _ _ h
      simp at this
  · intro hf
    simp [stringifiedFields, stringifyBatchItem, optField, hf, jsBoolString]

/-- Witness for C10 at a concrete item exercising all three behaviors:
`updated_after` supplied, an empty-string identifier, and a `false`
`include_price_history`. -/
theorem stringifyBatchItem_copy_list_witness :
    (∀ v : JsonValue, ("updated_after", v) ∉ stringifiedFields (stringifyBatchItem
      { tcgplayerId := some "", updated_after := some 1700000000,
        include_price_history := some false })) ∧
    (∀ v : JsonValue, ("tcgplayerId", v) ∉ stringifiedFields (stringifyBatchItem
      { tcgplayerId := some "", updated_after := some 1700000000,
        include_price_history := some false })) ∧
    ("include_price_history", JsonValue.str "false") ∈ stringifiedFields (stringifyBatchItem
      { tcgplayerId := some "", updated_after := some 1700000000,
        include_price_history := some false }) := by
  have h := stringifyBatchItem_copy_list
    { tcgplayerId := some "", updated_after := some 1700000000,
      include_price_history := some false }
  exact ⟨h.2.1, h.2.2.1 rfl, h.2.2.2 rfl⟩

/-- The `hasMore` read of the pagination loop
(`response.pagination?.hasMore ?? false` in `SetsResource.fetchAll`,
`src/v1/resources/sets.ts`): a missing pagination block counts as no more
pages. -/
def pageHasMore {T : Type} (r : JustTCGApiResponse T) : Bool :=
  (r.pagination.map PaginationMeta.hasMore).getD false

/-- The elements the loop body yields from one page
(`if (response.data && response.data.length > 0) ... yield`). -/
def pageYield {α : Type} (r : JustTCGApiResponse (List α)) : List α :=
  if r.data.length > 0 then r.data else []

/-- The yield guard is the identity: an empty page yields nothing either way. -/
theorem pageYield_eq_data {α : Type} (r : JustTCGApiResponse (List α)) :
    pageYield r = r.data := by
  rcases h : r.data with _ | ⟨a, rest⟩ <;> simp [pageYield, h]

/-- The fixed page size of `SetsResource.fetchAll` (`const limit = 100`). -/
def fetchAllPageSize : Nat := 100

/-- Embedding of the `do/while` pagination loop of `SetsResource.fetchAll`
(`src/v1/resources/sets.ts`) run against a sequence of mocked pages: the k-th
fetch consumes the k-th page of the sequence. Returns the offsets of the page
requests issued, in order, and the elements yielded, in order. The loop body
yields the page's data, reads `hasMore` (absent pagination counts as `false`),
advances `offset += limit` and repeats while `hasMore`. An exhausted mock
sequence ends the run. -/
def fetchAllFrom {α : Type} :
    List (JustTCGApiResponse (List α)) → Nat → Nat → List Nat × List α
  | [], _, _ => ([], [])
  | r :: rest, offset, limit =>
      if pageHasMore r then
        let next := fetchAllFrom rest (offset + limit) limit
        (offset :: next.1, pageYield r ++ next.2)
      else
        ([offset], pageYield r)

/-- The pagination driver `fetchAll` started at offset 0 with page size 100. -/
def fetchAll {α : Type} (pages : List (JustTCGApiResponse (List α))) : List Nat × List α :=
  fetchAllFrom pages 0 fetchAllPageSize

/-- The arithmetic of the advancing offset: the offsets of `n + 1` requests
starting at `off` are `off` followed by the offsets of `n` requests starting
one page later. -/
theorem range_offsets (n off L : Nat) :
    (List.range (n + 1)).map (fun k => off + k * L) =
      off :: (List.range n).map (fun k => (off + L) + k * L) := by
  rw [List.range_succ_eq_map]
  simp only [List.map_cons, Nat.zero_mul, Nat.add_zero, List.map_map]
  congr 1
  apply List.map_congr_left
  intro k _
  simp only [Function.comp_apply, Nat.succ_mul]
  omega

/-- The pagination loop over a page sequence whose first `hasMore=false` page
closes it, at an arbitrary starting offset. -/
theorem fetchAllFrom_spec {α : Type} (pre post : List (JustTCGApiResponse (List α)))
    (p : JustTCGApiResponse (List α)) (off L : Nat)
    (hpre : ∀ q ∈ pre, pageHasMore q = true) (hp : pageHasMore p = false) :
    fetchAllFrom (pre ++ p :: post) off L =
      ((List.range (pre.length + 1)).map (fun k => off + k * L),
       ((pre ++ [p]).map (fun r => r.data)).flatten) := by
  induction pre generalizing off with
  | nil =>
      simp [fetchAllFrom, hp, pageYield_eq_data, List.range_succ]
  | cons q rest ih =>
      have hq : pageHasMore q = true := hpre q (by simp)
      have hrest : ∀ r ∈ rest, pageHasMore r = true := fun r hr => hpre r (by simp [hr])
      have hih := ih (off + L) hrest
      have hstep : fetchAllFrom ((q :: rest) ++ p :: post) off L =
          (off :: (fetchAllFrom (rest ++ p :: post) (off + L) L).1,
           pageYield q ++ (fetchAllFrom (rest ++ p :: post) (off + L) L).2) := by
        simp [fetchAllFrom, hq]
      rw [hstep, hih]
      simp only [Prod.mk.injEq]
      constructor
      · rw [List.length_cons, range_offsets (rest.length + 1) off L]
      · simp [pageYield_eq_data]

/-- C1: for a mocked page sequence whose pages all report `hasMore=true`
before a final page reporting `hasMore=false` (or carrying no pagination
block), `fetchAll` issues exactly one request per page up to and including
that final page — the k-th request at offset `k * 100` — and yields exactly
the concatenation of those pages' data arrays in order. -/
theorem fetchAll_pagination {α : Type} (pre post : List (JustTCGApiResponse (List α)))
    (p : JustTCGApiResponse (List α))
    (hpre : ∀ q ∈ pre, pageHasMore q = true) (hp : pageHasMore p = false) :
    fetchAll (pre ++ p :: post) =
      ((List.range (pre.length + 1)).map (fun k => k * fetchAllPageSize),
       ((pre ++ [p]).map (fun r => r.data)).flatten) ∧
    (fetchAll (pre ++ p :: post)).1.length = pre.length + 1 := by
  have h := fetchAllFrom_spec pre post p 0 fetchAllPageSize hpre hp
  constructor
  · rw [fetchAll, h]
    simp
  · rw [fetchAll, h]
    simp

/-- A mocked first page holding one element and announcing a further page. -/
def mockSetPage1 : JustTCGApiResponse (List String) :=
  { data := ["Set Page 1"]
    pagination := some { total := 2, limit := 100, offset := 0, hasMore := true }
    usage := sampleUsage
    error := none
    code := none }

/-- A mocked second page holding one element and closing the sequence. -/
def mockSetPage2 : JustTCGApiResponse (List String) :=
  { data := ["Set Page 2"]
    pagination := some { total := 2, limit := 100, offset := 100, hasMore := false }
    usage := sampleUsage
    error := none
    code := none }

/-- Witness for C1: the spec's two-page scenario issues exactly the requests
at offsets 0 and 100 and yields the two pages' elements in order. -/
theorem fetchAll_pagination_witness :
    fetchAll [mockSetPage1, mockSetPage2] = ([0, 100], ["Set Page 1", "Set Page 2"]) := by
  have h := fetchAll_pagination [mockSetPage1] [] mockSetPage2
    (by intro q hq; simp at hq; rw [hq]; rfl) rfl
  have h1 := h.1
  simpa [mockSetPage1, mockSetPage2, fetchAllPageSize, List.range_succ] using h1

/-- A mocked page that is an API-level failure (non-empty `error`/`code`) but
whose pagination block still reports `hasMore=true`. -/
def mockErrorPage : JustTCGApiResponse (List String) :=
  { data := []
    pagination := some { total := 2, limit := 100, offset := 0, hasMore := true }
    usage := sampleUsage
    error := some "Internal error"
    code := some "INTERNAL_ERROR" }

/-- Counterexample to C3: with the concrete first page an API-level failure
(`error` non-empty) whose pagination reports `hasMore=true`, the driver does
not abort at that page — it issues a second page request and silently yields
the second page's data; the error string appears nowhere in the driver's
output. -/
theorem fetchAll_error_continues_counterexample :
    strTruthy mockErrorPage.error = true ∧
    (fetchAll [mockErrorPage, mockSetPage2]).1.length = 2 ∧
    (fetchAll [mockErrorPage, mockSetPage2]).2 = ["Set Page 2"] := by
  exact ⟨rfl, rfl, rfl⟩

/-- A response with its `error`/`code` pair replaced. -/
def setError {α : Type} (r : JustTCGApiResponse α) (e c : Option String) :
    JustTCGApiResponse α :=
  { r with error := e, code := c }

/-- C3 (amended): the pagination driver never inspects the `error`/`code`
fields: replacing them on any page changes neither the requests issued nor the
elements yielded — an API-level failure aborts the sequence only through its
pagination block (`hasMore` absent or false), and the error is never surfaced
in the driver's output. -/
theorem fetchAll_ignores_error {α : Type} (pre post : List (JustTCGApiResponse (List α)))
    (r : JustTCGApiResponse (List α)) (e c : Option String) :
    fetchAll (pre ++ setError r e c :: post) = fetchAll (pre ++ r :: post) := by
  have key : ∀ (pre : List (JustTCGApiResponse (List α))) (off L : Nat),
      fetchAllFrom (pre ++ setError r e c :: post) off L =
        fetchAllFrom (pre ++ r :: post) off L := by
    intro pre
    induction pre with
    | nil =>
        intro off L
        simp [fetchAllFrom, pageHasMore, pageYield, setError]
    | cons q rest ih =>
        intro off L
        cases hq : pageHasMore q
        · simp [fetchAllFrom, hq]
        · simp [fetchAllFrom, hq, ih]
  rw [fetchAll, fetchAll, key]

end JustTCG
